import Mathlib

/-!
A verification development for dso-metadata-time-zone-normalizer
(src/main.py).  The Python program is shallowly embedded: the timestamp
normalizer, the image-file processor and the text-file processor become
executable Lean functions; Python exceptions become explicit
Except/Option values; the parts of the external libraries the program
relies on (the strptime format patterns of the datetime module, the
pytz timezone database, the PIL ExifTags tables) are modelled to the
extent the program exercises them.
-/

namespace TZN

/-! ## Characters and digits -/

/-- Numeric value of a digit character. -/
def dv (c : Char) : Nat := c.toNat - '0'.toNat

/-! ## strptime field parsers

CPython strptime (Lib/_strptime.py) compiles each format directive to a
regex fragment and requires the whole input string to be consumed:

  %Y  four digits
  %m  one or two digits, value 1..12 (regex 1[0-2], 0[1-9], [1-9])
  %d  one or two digits, value 1..31 (regex 3[01], [12]d, 0[1-9], [1-9])
  %H  one or two digits, value 0..23 (regex 2[0-3], [0-1]d, d)
  %M  one or two digits, value 0..59 (regex [0-5]d, d)
  %S  one or two digits, value 0..61 (regex 6[0-1], [0-5]d, d)

In every format used by the program each numeric field is followed by a
non-digit literal separator or by the end of the string, so the regex
alternation (two-digit alternatives first, backtracking to the
one-digit alternative) is equivalent to the deterministic rule: if the
next two characters are both digits the field must consume both and
their value must be valid as a two-digit alternative, otherwise a
single digit is consumed and must be valid as a one-digit alternative.
A backtrack to the one-digit alternative would leave a digit in front
of the required non-digit separator and fail anyway. -/

/-- Parse one literal character. -/
def pLit (c : Char) : List Char → Option (List Char)
  | x :: rest => if x = c then some rest else none
  | [] => none

/-- Parse a one-or-two-digit numeric field: ok2 accepts values of the
two-digit regex alternatives, ok1 accepts values of the one-digit
alternative (see the equivalence note above). -/
def pNum2 (ok2 ok1 : Nat → Bool) : List Char → Option (Nat × List Char)
  | a :: b :: rest =>
    if a.isDigit then
      if b.isDigit then
        if ok2 (10 * dv a + dv b) then some (10 * dv a + dv b, rest) else none
      else if ok1 (dv a) then some (dv a, b :: rest) else none
    else none
  | [a] => if a.isDigit ∧ ok1 (dv a) = true then some (dv a, []) else none
  | [] => none

/-- Parse the four-digit year field of the %Y directive. -/
def p4Dig : List Char → Option (Nat × List Char)
  | a :: b :: c :: d :: rest =>
    if a.isDigit ∧ b.isDigit ∧ c.isDigit ∧ d.isDigit then
      some (1000 * dv a + 100 * dv b + 10 * dv c + dv d, rest)
    else none
  | _ => none

def okMon2 (v : Nat) : Bool := 1 ≤ v ∧ v ≤ 12
def okDay2 (v : Nat) : Bool := 1 ≤ v ∧ v ≤ 31
def okPos1 (v : Nat) : Bool := 1 ≤ v
def okHour2 (v : Nat) : Bool := v ≤ 23
def okMin2 (v : Nat) : Bool := v ≤ 59
def okSec2 (v : Nat) : Bool := v ≤ 61
def okAny1 (_ : Nat) : Bool := true

/-! ## Date-times -/

structure DateTime where
  year : Nat
  month : Nat
  day : Nat
  hour : Nat
  minute : Nat
  second : Nat
deriving DecidableEq, Repr

/-- Gregorian leap year, as datetime.isleap. -/
def isLeap (y : Nat) : Bool := (y % 4 = 0 ∧ y % 100 ≠ 0) ∨ y % 400 = 0

/-- Length of a month, as datetime days_in_month. -/
def daysInMonth (y m : Nat) : Nat :=
  if m = 2 then (if isLeap y then 29 else 28)
  else if m = 4 ∨ m = 6 ∨ m = 9 ∨ m = 11 then 30 else 31

/-- The datetime.datetime constructor: validates every field (year in
MINYEAR..MAXYEAR = 1..9999, month 1..12, day 1..days_in_month, hour
0..23, minute 0..59, second 0..59) and raises ValueError otherwise.
The regex ranges already bound month, day, hour and minute, but the
constructor check is what rejects e.g. February 30 or a leap second
accepted by the %S regex. -/
def mkDateTime (y mo d h mi s : Nat) : Option DateTime :=
  if 1 ≤ y ∧ y ≤ 9999 ∧ 1 ≤ mo ∧ mo ≤ 12 ∧ 1 ≤ d ∧ d ≤ daysInMonth y mo ∧
      h ≤ 23 ∧ mi ≤ 59 ∧ s ≤ 59 then
    some ⟨y, mo, d, h, mi, s⟩
  else none

/-! ## The five strptime formats of normalize_timestamp (main.py line 42) -/

/-- Time-of-day part " %H:%M:%S" shared by all five formats (without
the leading space, which pFormat consumes). -/
def pTime (l : List Char) : Option (Nat × Nat × Nat × List Char) :=
  match pNum2 okHour2 okAny1 l with
  | none => none
  | some (h, l1) =>
    match pLit ':' l1 with
    | none => none
    | some l2 =>
      match pNum2 okMin2 okAny1 l2 with
      | none => none
      | some (mi, l3) =>
        match pLit ':' l3 with
        | none => none
        | some l4 =>
          match pNum2 okSec2 okAny1 l4 with
          | none => none
          | some (s, l5) => some (h, mi, s, l5)

/-- Date part %Y sep %m sep %d, the common skeleton of the first three
formats (sep is the colon, dash or slash separator). -/
def pDateYsep (sep : Char) (l : List Char) : Option (Nat × Nat × Nat × List Char) :=
  match p4Dig l with
  | none => none
  | some (y, l1) =>
    match pLit sep l1 with
    | none => none
    | some l2 =>
      match pNum2 okMon2 okPos1 l2 with
      | none => none
      | some (mo, l3) =>
        match pLit sep l3 with
        | none => none
        | some l4 =>
          match pNum2 okDay2 okPos1 l4 with
          | none => none
          | some (d, l5) => some (y, mo, d, l5)

/-- Date part %Y:%m:%d. -/
def pDateYcolon : List Char → Option (Nat × Nat × Nat × List Char) := pDateYsep ':'

/-- Date part %Y-%m-%d. -/
def pDateYdash : List Char → Option (Nat × Nat × Nat × List Char) := pDateYsep '-'

/-- Date part %Y/%m/%d. -/
def pDateYslash : List Char → Option (Nat × Nat × Nat × List Char) := pDateYsep '/'

/-- The common skeleton of the two slash-first formats: a two-digit
field, slash, a two-digit field, slash, the year; returns the fields in
source order (first, second, year, rest). -/
def pDateNNY (okF2 okS2 : Nat → Bool) (l : List Char) :
    Option (Nat × Nat × Nat × List Char) :=
  match pNum2 okF2 okPos1 l with
  | none => none
  | some (f, l1) =>
    match pLit '/' l1 with
    | none => none
    | some l2 =>
      match pNum2 okS2 okPos1 l2 with
      | none => none
      | some (s, l3) =>
        match pLit '/' l3 with
        | none => none
        | some l4 =>
          match p4Dig l4 with
          | none => none
          | some (y, l5) => some (f, s, y, l5)

/-- Date part %m/%d/%Y. -/
def pDateMDY (l : List Char) : Option (Nat × Nat × Nat × List Char) :=
  match pDateNNY okMon2 okDay2 l with
  | none => none
  | some (mo, d, y, r) => some (y, mo, d, r)

/-- Date part %d/%m/%Y. -/
def pDateDMY (l : List Char) : Option (Nat × Nat × Nat × List Char) :=
  match pDateNNY okDay2 okMon2 l with
  | none => none
  | some (d, mo, y, r) => some (y, mo, d, r)

/-- One full strptime call for a format "DATE %H:%M:%S": the date part,
a literal space, the time part, no unconverted data remaining, then the
datetime constructor checks.  Any failure is the ValueError that the
per-format try/except in main.py lines 44-48 catches. -/
def pFormat (pDate : List Char → Option (Nat × Nat × Nat × List Char)) (s : String) :
    Option DateTime :=
  match pDate s.data with
  | none => none
  | some (y, mo, d, rest) =>
    match pLit ' ' rest with
    | none => none
    | some rest1 =>
      match pTime rest1 with
      | none => none
      | some (h, mi, sec, rest2) =>
        if rest2 = [] then mkDateTime y mo d h mi sec else none

def strptimeF1 (s : String) : Option DateTime := pFormat pDateYcolon s
def strptimeF2 (s : String) : Option DateTime := pFormat pDateYdash s
def strptimeF3 (s : String) : Option DateTime := pFormat pDateYslash s
def strptimeF4 (s : String) : Option DateTime := pFormat pDateMDY s
def strptimeF5 (s : String) : Option DateTime := pFormat pDateDMY s

/-- The parse loop of normalize_timestamp (main.py lines 42-48): the
five formats are tried in order and the first success breaks out. -/
def parseTimestamp (s : String) : Option DateTime :=
  match strptimeF1 s with
  | some dt => some dt
  | none =>
    match strptimeF2 s with
    | some dt => some dt
    | none =>
      match strptimeF3 s with
      | some dt => some dt
      | none =>
        match strptimeF4 s with
        | some dt => some dt
        | none => strptimeF5 s

/-- The date-only check of process_text_file (main.py line 157):
datetime.strptime(word, "%Y-%m-%d"), a whole-string match with no time
component; strptime fills in midnight and the constructor checks run. -/
def strptimeDateOnly (s : String) : Option DateTime :=
  match pDateYdash s.data with
  | none => none
  | some (y, mo, d, rest) =>
    if rest = [] then mkDateTime y mo d 0 0 0 else none

/-! ## Calendar arithmetic (proleptic Gregorian, as the datetime module) -/

/-- Days in all years before year y (year 1 is the first year). -/
def daysBeforeYear (y : Nat) : Nat :=
  365 * (y - 1) + (y - 1) / 4 - (y - 1) / 100 + (y - 1) / 400

/-- Days in the months of year y before month m. -/
def daysBeforeMonth (y : Nat) (m : Nat) : Nat :=
  let leapAdd : Nat := if isLeap y then 1 else 0
  match m with
  | 3 => 59 + leapAdd
  | 4 => 90 + leapAdd
  | 5 => 120 + leapAdd
  | 6 => 151 + leapAdd
  | 7 => 181 + leapAdd
  | 8 => 212 + leapAdd
  | 9 => 243 + leapAdd
  | 10 => 273 + leapAdd
  | 11 => 304 + leapAdd
  | 12 => 334 + leapAdd
  | 2 => 31
  | _ => 0

/-- Day number of a date counted from 0001-01-01 = day 0. -/
def toDays (y m d : Nat) : Nat := daysBeforeYear y + daysBeforeMonth y m + (d - 1)

/-- Seconds since 0001-01-01 00:00:00 of a date-time. -/
def toAbsSeconds (dt : DateTime) : Nat :=
  86400 * toDays dt.year dt.month dt.day + 3600 * dt.hour + 60 * dt.minute + dt.second

/-- Day of the week, 0 = Monday .. 6 = Sunday (0001-01-01 was a Monday
in the proleptic Gregorian calendar). -/
def weekday (y m d : Nat) : Nat := toDays y m d % 7

/-! ## The pytz timezone database slice

Modelled from the spec: the IANA timezone database that pytz exposes is
an external data file, not code of this repository.  The spec names the
zones the program is exercised with: "UTC" (fixed offset 0) and
"America/New_York" (standard time UTC-5, daylight time UTC-4, with the
post-2007 United States rule: daylight time from the second Sunday of
March at 02:00 local / 07:00 UTC to the first Sunday of November at
02:00 local daylight time / 06:00 UTC).  Every other name raises
pytz.exceptions.UnknownTimeZoneError.  Historical pre-2007 transition
rules are not modelled; no claim exercises them. -/

/-- Day of month of the second Sunday of March. -/
def secondSundayMarch (y : Nat) : Nat := 1 + (6 - weekday y 3 1) % 7 + 7

/-- Day of month of the first Sunday of November. -/
def firstSundayNov (y : Nat) : Nat := 1 + (6 - weekday y 11 1) % 7

/-- Is a UTC instant inside the America/New_York daylight-saving window
of its year (used by fromutc, i.e. by astimezone)? -/
def nyIsDstUtc (u : DateTime) : Bool :=
  let startS := toAbsSeconds ⟨u.year, 3, secondSundayMarch u.year, 7, 0, 0⟩
  let stopS := toAbsSeconds ⟨u.year, 11, firstSundayNov u.year, 6, 0, 0⟩
  startS ≤ toAbsSeconds u ∧ toAbsSeconds u < stopS

/-- Is a naive local wall-clock time inside the America/New_York
daylight-saving window under the localize(is_dst=False) policy (pytz
resolves ambiguous and nonexistent wall times to standard time)?  The
exact behaviour on the one ambiguous and one nonexistent hour per year
is approximated; no claim exercises America/New_York as a source
timezone. -/
def nyIsDstLocal (lt : DateTime) : Bool :=
  let startS := toAbsSeconds ⟨lt.year, 3, secondSundayMarch lt.year, 3, 0, 0⟩
  let stopS := toAbsSeconds ⟨lt.year, 11, firstSundayNov lt.year, 1, 0, 0⟩
  startS ≤ toAbsSeconds lt ∧ toAbsSeconds lt < stopS

/-- A pytz timezone object, reduced to what the program uses: the UTC
offset in minutes that localize(is_dst=False) attaches to a naive wall
time, and the UTC offset in minutes that fromutc selects for a UTC
instant. -/
structure PyTz where
  offsetAtLocal : DateTime → Int
  offsetAtUtc : DateTime → Int

def utcTz : PyTz := ⟨fun _ => 0, fun _ => 0⟩

def nyTz : PyTz :=
  ⟨fun lt => if nyIsDstLocal lt then -240 else -300,
   fun u => if nyIsDstUtc u then -240 else -300⟩

/-- pytz.timezone: resolves an IANA name or raises
UnknownTimeZoneError (here: none). -/
def pytzTimezone (name : String) : Option PyTz :=
  if name = "UTC" then some utcTz
  else if name = "America/New_York" then some nyTz
  else none

/-! ## datetime arithmetic used by astimezone -/

/-- Step to the next calendar day; none models the OverflowError raised
when leaving the datetime range (year past MAXYEAR = 9999). -/
def nextDay (dt : DateTime) : Option DateTime :=
  if dt.day < daysInMonth dt.year dt.month then some { dt with day := dt.day + 1 }
  else if dt.month < 12 then some { dt with month := dt.month + 1, day := 1 }
  else if dt.year < 9999 then some { dt with year := dt.year + 1, month := 1, day := 1 }
  else none

/-- Step to the previous calendar day; none models the OverflowError
raised when leaving the datetime range (year before MINYEAR = 1). -/
def prevDay (dt : DateTime) : Option DateTime :=
  if 1 < dt.day then some { dt with day := dt.day - 1 }
  else if 1 < dt.month then
    some { dt with month := dt.month - 1, day := daysInMonth dt.year (dt.month - 1) }
  else if 1 < dt.year then some { dt with year := dt.year - 1, month := 12, day := 31 }
  else none

/-- Add a minute offset to a date-time, rolling the date over by at
most one day; valid for offsets of magnitude below 1440 minutes, which
holds for every zone of the modelled database (and for every real IANA
zone, whose offsets stay within one day). -/
def addMinutes (dt : DateTime) (delta : Int) : Option DateTime :=
  let tot : Int := (dt.hour : Int) * 60 + (dt.minute : Int) + delta
  if tot < 0 then
    match prevDay dt with
    | none => none
    | some d2 =>
      let t2 : Nat := (tot + 1440).toNat
      some { d2 with hour := t2 / 60, minute := t2 % 60 }
  else if tot < 1440 then
    some { dt with hour := tot.toNat / 60, minute := tot.toNat % 60 }
  else
    match nextDay dt with
    | none => none
    | some d2 =>
      let t2 : Nat := (tot - 1440).toNat
      some { d2 with hour := t2 / 60, minute := t2 % 60 }

/-- localize (main.py line 56): attaches the source zone to the naive
parse result, choosing the offset by the is_dst=False policy; the wall
time itself is unchanged. -/
def localize (tz : PyTz) (dt : DateTime) : DateTime × Int := (dt, tz.offsetAtLocal dt)

/-- astimezone (main.py line 60): subtract the source offset to reach
the UTC instant, then add the offset the target zone selects for that
instant (pytz fromutc); none models OverflowError when either step
leaves the datetime range. -/
def astimezone (wall : DateTime) (srcOff : Int) (tgt : PyTz) : Option DateTime :=
  match addMinutes wall (-srcOff) with
  | none => none
  | some u => addMinutes u (tgt.offsetAtUtc u)

/-! ## strftime output (main.py line 63) -/

/-- The characters of the %Y directive: the year as its decimal
numeral.  CPython delegates to the C library strftime; glibc prints the
year unpadded, so years below 1000 yield fewer than four digits (the
documented platform behaviour on the target platform of this tool).
Years reaching this function lie in 1..9999, covered by the explicit
branches; the final branch defers to the generic numeral. -/
def yearChars (y : Nat) : List Char :=
  if y < 10 then [Nat.digitChar y]
  else if y < 100 then [Nat.digitChar (y / 10), Nat.digitChar (y % 10)]
  else if y < 1000 then
    [Nat.digitChar (y / 100), Nat.digitChar (y / 10 % 10), Nat.digitChar (y % 10)]
  else if y < 10000 then
    [Nat.digitChar (y / 1000), Nat.digitChar (y / 100 % 10),
     Nat.digitChar (y / 10 % 10), Nat.digitChar (y % 10)]
  else (toString y).data

/-- Two characters of a zero-padded two-digit field (%m, %d, %H, %M,
%S); every value reaching it is below 100. -/
def pad2c (n : Nat) : List Char := [Nat.digitChar (n / 10), Nat.digitChar (n % 10)]

/-- strftime("%Y:%m:%d %H:%M:%S"). -/
def strftimeExif (dt : DateTime) : String :=
  ⟨yearChars dt.year ++ ':' :: pad2c dt.month ++ ':' :: pad2c dt.day ++
    ' ' :: pad2c dt.hour ++ ':' :: pad2c dt.minute ++ ':' :: pad2c dt.second⟩

/-! ## normalize_timestamp (main.py lines 27-70) -/

/-- The Python exception classes that can reach the handlers of
normalize_timestamp.  KeyboardInterrupt derives from BaseException but
not from Exception, so an except Exception clause would not catch it;
it is included so that totality of the function is a statement with
content rather than a tautology of the embedding. -/
inductive PyExc
  | valueError
  | unknownTimeZoneError
  | overflowError
  | keyboardInterrupt
deriving DecidableEq, Repr

/-- Does the class derive from Exception (and is therefore caught by
the except Exception clause on main.py line 68)? -/
def PyExc.isException : PyExc → Bool
  | .keyboardInterrupt => false
  | _ => true

/-- The body of normalize_timestamp inside its try block: parse (a
failed parse is handled inline and returns None, lines 49-51), resolve
the source zone (line 55), localize (line 56), resolve the target zone
(line 59), convert (line 60), format (line 63).  An error value is an
exception escaping the try block. -/
def normalizeBody (ts src tgt : String) : Except PyExc (Option String) :=
  match parseTimestamp ts with
  | none => Except.ok none
  | some dt =>
    match pytzTimezone src with
    | none => Except.error PyExc.unknownTimeZoneError
    | some srcTz =>
      match pytzTimezone tgt with
      | none => Except.error PyExc.unknownTimeZoneError
      | some tgtTz =>
        match astimezone (localize srcTz dt).1 (localize srcTz dt).2 tgtTz with
        | none => Except.error PyExc.overflowError
        | some out => Except.ok (some (strftimeExif out))

/-- The handlers of main.py lines 65-70: except UnknownTimeZoneError
and except Exception both return None; an exception class outside the
Exception hierarchy would propagate. -/
def runWithHandlers (r : Except PyExc (Option String)) : Except PyExc (Option String) :=
  match r with
  | Except.ok v => Except.ok v
  | Except.error e => if e.isException then Except.ok none else Except.error e

/-- normalize_timestamp as observed by its callers: the returned value
when no exception propagates (the totality theorem below shows the
error branch is unreachable).  The Python parameter target_timezone
defaults to "UTC"; both call sites pass it explicitly. -/
def normalize_timestamp (ts src tgt : String) : Option String :=
  match runWithHandlers (normalizeBody ts src tgt) with
  | Except.ok r => r
  | Except.error _ => none

/-! ## File-level events

Both processors are straight-line code over one file: open and read it,
evaluate each candidate with normalize_timestamp in order, then perform
at most one write.  The event trace records that shape so ordering and
write-count properties can be stated. -/

inductive Event
  | readF
  | evalCand (value : String) (result : Option String)
  | writeF (payload : String)
deriving DecidableEq, Repr

def Event.isWrite : Event → Bool
  | .writeF _ => true
  | _ => false

def Event.isEval : Event → Bool
  | .evalCand _ _ => true
  | _ => false

/-- Number of write events in a trace. -/
def writeCount (l : List Event) : Nat := (l.filter Event.isWrite).length

/-- No candidate evaluation happens after a write. -/
def noEvalAfterWrite : List Event → Bool
  | [] => true
  | Event.writeF _ :: rest => rest.all (fun e => ¬ e.isEval)
  | _ :: rest => noEvalAfterWrite rest

/-! ## process_image_file (main.py lines 72-126) -/

/-- The PIL ExifTags.TAGS table restricted to what the tag-name test on
main.py line 97 can match: ids 306, 36867 and 36868 are the only ids
TAGS maps to "DateTime", "DateTimeOriginal" and "DateTimeDigitized";
every other id stands for some other tag name (returned here as ""). -/
def exifTagName (tagId : Nat) : String :=
  if tagId = 306 then "DateTime"
  else if tagId = 36867 then "DateTimeOriginal"
  else if tagId = 36868 then "DateTimeDigitized"
  else ""

/-- The membership test of main.py line 97. -/
def isDateTimeTag (tagId : Nat) : Bool :=
  exifTagName tagId = "DateTime" ∨ exifTagName tagId = "DateTimeOriginal" ∨
    exifTagName tagId = "DateTimeDigitized"

/-- The staging loop of main.py lines 90-103: for each datetime tag
whose value normalizes to a truthy (non-None, nonempty) string, record
tag id and new value in updated_exif. -/
def stagedExif (tags : List (Nat × String)) (tgt : String) : List (Nat × String) :=
  tags.filterMap fun p =>
    if isDateTimeTag p.1 then
      match normalize_timestamp p.2 "UTC" tgt with
      | some n => if n = "" then none else some (p.1, n)
      | none => none
    else none

/-- The in-memory update loop of main.py lines 108-109: write each
staged value back into the tag dictionary under its tag id. -/
def applyStaged (tags staged : List (Nat × String)) : List (Nat × String) :=
  tags.map fun p =>
    match staged.lookup p.1 with
    | some n => (p.1, n)
    | none => p

/-- main.py line 112 reads Image.ExifTags.ExifTag.string_to_bytes and
Image.ExifTags.ExifTag.dict_to_bytes; the PIL ExifTags module defines
only the TAGS and GPSTAGS tables (newer releases also Base, GPS, IFD,
Interop and LightSource), never an ExifTag attribute, so the attribute
access raises AttributeError before any bytes are produced. -/
def pilExifSerialize (_tags : List (Nat × String)) : Except String String :=
  Except.error "AttributeError"

inductive ImageOutcome
  | noExifData
  | savedOk
  | dryRunReport (staged : List (Nat × String))
  | noDateTimeTags
  | errorCaught (exc : String)
deriving DecidableEq, Repr

structure ImageRun where
  staged : List (Nat × String)
  written : Option (List (Nat × String))
  events : List Event
  outcome : ImageOutcome
deriving DecidableEq, Repr

/-- process_image_file: the EXIF dictionary of the opened file (none
when _getexif returns None), the staging loop, then the conditional
write-back of lines 105-118.  The written field is the tag set a
successful save would persist (none: the file is untouched; the pixel
data is never touched by this code path at all).  In the non-dry-run
branch the serialization raises AttributeError, which the except
Exception handler of line 125 catches after the in-memory update of
lines 108-109 has already happened. -/
def process_image_file (exif : Option (List (Nat × String))) (tgt : String)
    (dryRun : Bool) : ImageRun :=
  match exif with
  | none => ⟨[], none, [Event.readF], ImageOutcome.noExifData⟩
  | some tags =>
    let staged := stagedExif tags tgt
    let evs := Event.readF ::
      tags.filterMap fun p =>
        if isDateTimeTag p.1 then
          some (Event.evalCand p.2 (normalize_timestamp p.2 "UTC" tgt))
        else none
    if staged = [] then ⟨staged, none, evs, ImageOutcome.noDateTimeTags⟩
    else if dryRun then ⟨staged, none, evs, ImageOutcome.dryRunReport staged⟩
    else
      match pilExifSerialize (applyStaged tags staged) with
      | Except.ok _ =>
        ⟨staged, some (applyStaged tags staged),
          evs ++ [Event.writeF "exif"], ImageOutcome.savedOk⟩
      | Except.error e => ⟨staged, none, evs, ImageOutcome.errorCaught e⟩

/-! ## process_text_file (main.py lines 128-188)

The chardet detection and the encoding round-trip are I/O glue outside
the embedding: the file appears as its decoded string content. -/

/-- Split a character list at every separator character, dropping the
separators and keeping empty pieces (the semantics of str.split with an
explicit separator class). -/
def splitBy (p : Char → Bool) : List Char → List (List Char)
  | [] => [[]]
  | c :: rest =>
    match splitBy p rest with
    | [] => if p c then [[], []] else [[c]]
    | t :: ts => if p c then [] :: t :: ts else (c :: t) :: ts

/-- str.split() of a line: split on whitespace runs, no empty tokens.
(Python also splits on less common Unicode whitespace; the difference
is immaterial here since candidates are digit-and-dash tokens.) -/
def pySplitWs (s : String) : List String :=
  ((splitBy Char.isWhitespace s.data).map (fun l => String.mk l)).filter
    (fun w => w ≠ "")

/-- str.splitlines(), reduced to newline separation (Python also
recognizes rarer line breaks; immaterial here for the same reason). -/
def pySplitLines (s : String) : List String :=
  (splitBy (fun c => c = '\n') s.data).map (fun l => String.mk l)

/-- The candidate scan of main.py lines 152-160: every
whitespace-delimited token of every line that datetime.strptime parses
with "%Y-%m-%d", in order, duplicates kept. -/
def textCandidates (content : String) : List String :=
  ((pySplitLines content).map
    (fun line => (pySplitWs line).filter (fun w => (strptimeDateOnly w).isSome))).flatten

/-- Dictionary update replacements[timestamp] = normalized. -/
def assocUpdate (l : List (String × String)) (k v : String) : List (String × String) :=
  if l.any (fun p => p.1 = k) then
    l.map (fun p => if p.1 = k then (k, v) else p)
  else l ++ [(k, v)]

/-- One iteration of the loop of main.py lines 165-170: on a truthy
normalization, globally replace every occurrence of the candidate in
the accumulated content and record the mapping. -/
def textStep (tgt : String) (acc : String × List (String × String)) (w : String) :
    String × List (String × String) :=
  match normalize_timestamp w "UTC" tgt with
  | some n => if n = "" then acc else ((acc.1.replace w n), assocUpdate acc.2 w n)
  | none => acc

inductive TextOutcome
  | wroteOk
  | dryRunReport (replacements : List (String × String))
  | noOp
deriving DecidableEq, Repr

structure TextRun where
  candidates : List String
  replacements : List (String × String)
  finalContent : String
  written : Option String
  events : List Event
  outcome : TextOutcome
deriving DecidableEq, Repr

/-- process_text_file: candidate scan, the replacement loop, then the
conditional single write-back of lines 172-180. -/
def process_text_file (content tgt : String) (dryRun : Bool) : TextRun :=
  let cands := textCandidates content
  let res := cands.foldl (textStep tgt) (content, [])
  let evs := Event.readF ::
    cands.map fun w => Event.evalCand w (normalize_timestamp w "UTC" tgt)
  if res.2 = [] then ⟨cands, res.2, res.1, none, evs, TextOutcome.noOp⟩
  else if dryRun then ⟨cands, res.2, res.1, none, evs, TextOutcome.dryRunReport res.2⟩
  else ⟨cands, res.2, res.1, some res.1, evs ++ [Event.writeF res.1], TextOutcome.wroteOk⟩

/-- The replacement set accumulated over the whole candidate list. -/
def textReplacements (content tgt : String) : List (String × String) :=
  ((textCandidates content).foldl (textStep tgt) (content, [])).2

/-- The content after the whole candidate list has been evaluated. -/
def textFinal (content tgt : String) : String :=
  ((textCandidates content).foldl (textStep tgt) (content, [])).1

/-! ## Statement vocabulary -/

/-- Field bounds that every datetime.datetime object satisfies (the
day bound is the loose bound 31; exact month lengths are not needed to
state output-format properties). -/
def Bounded (dt : DateTime) : Prop :=
  1 ≤ dt.year ∧ dt.year ≤ 9999 ∧ dt.month ≤ 12 ∧ dt.day ≤ 31 ∧
    dt.hour ≤ 23 ∧ dt.minute ≤ 59 ∧ dt.second ≤ 59

instance (dt : DateTime) : Decidable (Bounded dt) := by
  unfold Bounded; infer_instance

/-- Character shape of the fixed output format YYYY:MM:DD HH:MM:SS:
nineteen characters, four-digit year, two-digit remaining fields,
colon-separated date and time, one space between them. -/
def isExifShapeL : List Char → Bool
  | [y1, y2, y3, y4, a1, m1, m2, a2, d1, d2, sp, h1, h2, a3, i1, i2, a4, s1, s2] =>
    y1.isDigit && y2.isDigit && y3.isDigit && y4.isDigit &&
      (a1 == ':') && m1.isDigit && m2.isDigit && (a2 == ':') &&
      d1.isDigit && d2.isDigit && (sp == ' ') && h1.isDigit && h2.isDigit &&
      (a3 == ':') && i1.isDigit && i2.isDigit && (a4 == ':') &&
      s1.isDigit && s2.isDigit
  | _ => false

/-- Is a string exactly of the shape YYYY:MM:DD HH:MM:SS? -/
def isExifShape (s : String) : Bool := isExifShapeL s.data

/-! # Theorems

Structural inversion lemmas for the parsers, boundedness lemmas for the
calendar arithmetic, and the claim theorems. -/

theorem pLit_eq {c : Char} {l r : List Char} (h : pLit c l = some r) : l = c :: r := by
  cases l with
  | nil => simp [pLit] at h
  | cons x rest =>
    simp only [pLit] at h
    split_ifs at h with hx
    injection h with h2
    rw [hx, h2]

theorem pNum2_split {ok2 ok1 : Nat → Bool} {l r : List Char} {n : Nat}
    (h : pNum2 ok2 ok1 l = some (n, r)) :
    (∃ a, l = a :: r ∧ a.isDigit = true) ∨
      ∃ a b, l = a :: b :: r ∧ a.isDigit = true ∧ b.isDigit = true := by
  cases l with
  | nil => simp [pNum2] at h
  | cons a l1 =>
    cases l1 with
    | nil =>
      simp only [pNum2] at h
      split_ifs at h with hc
      simp only [Option.some.injEq, Prod.mk.injEq] at h
      obtain ⟨-, h3⟩ := h
      subst h3
      exact Or.inl ⟨a, rfl, hc.1⟩
    | cons b l2 =>
      simp only [pNum2] at h
      split_ifs at h with h1 h2 h3 h4
      · simp only [Option.some.injEq, Prod.mk.injEq] at h
        obtain ⟨-, h5⟩ := h
        subst h5
        exact Or.inr ⟨a, b, rfl, h1, h2⟩
      · try simp only [Option.some.injEq, Prod.mk.injEq] at h
        obtain ⟨-, h5⟩ := h
        subst h5
        exact Or.inl ⟨a, rfl, h1⟩

theorem p4Dig_split {l r : List Char} {n : Nat} (h : p4Dig l = some (n, r)) :
    ∃ a b c d, l = a :: b :: c :: d :: r ∧ a.isDigit = true ∧ b.isDigit = true ∧
      c.isDigit = true ∧ d.isDigit = true := by
  match l with
  | [] => simp [p4Dig] at h
  | [a] => simp [p4Dig] at h
  | [a, b] => simp [p4Dig] at h
  | [a, b, c] => simp [p4Dig] at h
  | a :: b :: c :: d :: rest =>
    simp only [p4Dig] at h
    split_ifs at h with hc
    simp only [Option.some.injEq, Prod.mk.injEq] at h
    obtain ⟨-, h5⟩ := h
    subst h5
    exact ⟨a, b, c, d, rfl, hc.1, hc.2.1, hc.2.2.1, hc.2.2.2⟩

theorem pDateYsep_chars {sep : Char} {l r : List Char} {y mo d : Nat}
    (h : pDateYsep sep l = some (y, mo, d, r)) :
    ∃ p1 p2 p3 : List Char, l = p1 ++ sep :: p2 ++ sep :: p3 ++ r ∧
      p1.all Char.isDigit = true ∧ p2.all Char.isDigit = true ∧
      p3.all Char.isDigit = true := by
  unfold pDateYsep at h
  rcases h1 : p4Dig l with _ | ⟨yy, l1⟩ <;> rw [h1] at h <;> try dsimp only at h
  · simp at h
  rcases h2 : pLit sep l1 with _ | l2 <;> rw [h2] at h <;> try dsimp only at h
  · simp at h
  rcases h3 : pNum2 okMon2 okPos1 l2 with _ | ⟨m1, l3⟩ <;> rw [h3] at h <;> try dsimp only at h
  · simp at h
  rcases h4 : pLit sep l3 with _ | l4 <;> rw [h4] at h <;> try dsimp only at h
  · simp at h
  rcases h5 : pNum2 okDay2 okPos1 l4 with _ | ⟨d1, l5⟩ <;> rw [h5] at h <;> try dsimp only at h
  · simp at h
  simp only [Option.some.injEq, Prod.mk.injEq] at h
  obtain ⟨-, -, -, hr⟩ := h
  subst hr
  obtain ⟨a, b, c, d4, hl, ha, hb, hc4, hd4⟩ := p4Dig_split h1
  have hl1 := pLit_eq h2
  have hl3 := pLit_eq h4
  rcases pNum2_split h3 with ⟨e, hl2, he⟩ | ⟨e, f, hl2, he, hf⟩ <;>
    rcases pNum2_split h5 with ⟨g, hl4, hg⟩ | ⟨g, g2, hl4, hg, hg2⟩
  · exact ⟨[a, b, c, d4], [e], [g], by subst_vars; simp,
      by simp [ha, hb, hc4, hd4], by simp [he], by simp [hg]⟩
  · exact ⟨[a, b, c, d4], [e], [g, g2], by subst_vars; simp,
      by simp [ha, hb, hc4, hd4], by simp [he], by simp [hg, hg2]⟩
  · exact ⟨[a, b, c, d4], [e, f], [g], by subst_vars; simp,
      by simp [ha, hb, hc4, hd4], by simp [he, hf], by simp [hg]⟩
  · exact ⟨[a, b, c, d4], [e, f], [g, g2], by subst_vars; simp,
      by simp [ha, hb, hc4, hd4], by simp [he, hf], by simp [hg, hg2]⟩

theorem pDateNNY_chars {okF2 okS2 : Nat → Bool} {l r : List Char} {f1 s1 y1 : Nat}
    (h : pDateNNY okF2 okS2 l = some (f1, s1, y1, r)) :
    ∃ p1 p2 p3 : List Char, l = p1 ++ '/' :: p2 ++ '/' :: p3 ++ r ∧
      p1.all Char.isDigit = true ∧ p2.all Char.isDigit = true ∧
      p3.all Char.isDigit = true ∧ (p1.length = 1 ∨ p1.length = 2) := by
  unfold pDateNNY at h
  rcases h1 : pNum2 okF2 okPos1 l with _ | ⟨a1, l1⟩ <;> rw [h1] at h <;> try dsimp only at h
  · simp at h
  rcases h2 : pLit '/' l1 with _ | l2 <;> rw [h2] at h <;> try dsimp only at h
  · simp at h
  rcases h3 : pNum2 okS2 okPos1 l2 with _ | ⟨b1, l3⟩ <;> rw [h3] at h <;> try dsimp only at h
  · simp at h
  rcases h4 : pLit '/' l3 with _ | l4 <;> rw [h4] at h <;> try dsimp only at h
  · simp at h
  rcases h5 : p4Dig l4 with _ | ⟨c1, l5⟩ <;> rw [h5] at h <;> try dsimp only at h
  · simp at h
  simp only [Option.some.injEq, Prod.mk.injEq] at h
  obtain ⟨-, -, -, hr⟩ := h
  subst hr
  obtain ⟨a, b, c, d4, hl4x, ha, hb, hc4, hd4⟩ := p4Dig_split h5
  have hl1 := pLit_eq h2
  have hl3 := pLit_eq h4
  rcases pNum2_split h1 with ⟨e, hl, he⟩ | ⟨e, f, hl, he, hf⟩ <;>
    rcases pNum2_split h3 with ⟨g, hl2, hg⟩ | ⟨g, g2, hl2, hg, hg2⟩
  · exact ⟨[e], [g], [a, b, c, d4], by subst_vars; simp,
      by simp [he], by simp [hg], by simp [ha, hb, hc4, hd4], by simp⟩
  · exact ⟨[e], [g, g2], [a, b, c, d4], by subst_vars; simp,
      by simp [he], by simp [hg, hg2], by simp [ha, hb, hc4, hd4], by simp⟩
  · exact ⟨[e, f], [g], [a, b, c, d4], by subst_vars; simp,
      by simp [he, hf], by simp [hg], by simp [ha, hb, hc4, hd4], by simp⟩
  · exact ⟨[e, f], [g, g2], [a, b, c, d4], by subst_vars; simp,
      by simp [he, hf], by simp [hg, hg2], by simp [ha, hb, hc4, hd4], by simp⟩

theorem p4Dig_none2 (a b : Char) (r : List Char) (hb : b.isDigit = false) :
    p4Dig (a :: b :: r) = none := by
  cases r with
  | nil => rfl
  | cons c r1 =>
    cases r1 with
    | nil => rfl
    | cons d r2 => simp [p4Dig, hb]

theorem p4Dig_none3 (a b c : Char) (r : List Char) (hc : c.isDigit = false) :
    p4Dig (a :: b :: c :: r) = none := by
  cases r with
  | nil => rfl
  | cons d r2 => simp [p4Dig, hc]

theorem pFormat_none {pDate : List Char → Option (Nat × Nat × Nat × List Char)}
    {s : String} (h : pDate s.data = none) : pFormat pDate s = none := by
  unfold pFormat
  rw [h]

theorem pDateYsep_none {sep : Char} {l : List Char} (h : p4Dig l = none) :
    pDateYsep sep l = none := by
  unfold pDateYsep
  rw [h]

theorem pFormat_space {pDate : List Char → Option (Nat × Nat × Nat × List Char)}
    {s : String} {dt : DateTime}
    (hsub : ∀ y mo d r, pDate s.data = some (y, mo, d, r) → ∃ pre, s.data = pre ++ r)
    (h : pFormat pDate s = some dt) : ' ' ∈ s.data := by
  unfold pFormat at h
  rcases h1 : pDate s.data with _ | ⟨y, mo, d, rest⟩ <;> rw [h1] at h <;> try dsimp only at h
  · simp at h
  rcases h2 : pLit ' ' rest with _ | rest1 <;> rw [h2] at h <;> try dsimp only at h
  · simp at h
  obtain ⟨pre, hpre⟩ := hsub _ _ _ _ h1
  have hr := pLit_eq h2
  rw [hpre, hr]
  exact List.mem_append_right _ (List.mem_cons_self _ _)

theorem pDateMDY_inv {l r : List Char} {y mo d : Nat}
    (h : pDateMDY l = some (y, mo, d, r)) :
    pDateNNY okMon2 okDay2 l = some (mo, d, y, r) := by
  unfold pDateMDY at h
  rcases h1 : pDateNNY okMon2 okDay2 l with _ | ⟨f1, s1, y1, r1⟩ <;> rw [h1] at h <;>
    try dsimp only at h
  · simp at h
  simp only [Option.some.injEq, Prod.mk.injEq] at h
  obtain ⟨hy, hmo, hd, hr⟩ := h
  subst hy; subst hmo; subst hd; subst hr
  rfl

/-- C4: the five format patterns are tried in the fixed order, each as
a whole-string match, and the first that parses wins; whenever a string
parses under both the fourth (MM/DD/YYYY) and the fifth (DD/MM/YYYY)
pattern, the overall parse is the MM/DD/YYYY interpretation, because a
slash-first match places a slash where the three year-first patterns
need digits, so patterns one to three all fail. -/
theorem c4_format_order_mdy_wins (s : String) (d4 d5 : DateTime)
    (h4 : strptimeF4 s = some d4) (h5 : strptimeF5 s = some d5) :
    parseTimestamp s = some d4 := by
  have hstart : (∃ a r1, s.data = a :: '/' :: r1) ∨
      ∃ a b r1, s.data = a :: b :: '/' :: r1 := by
    unfold strptimeF4 pFormat at h4
    rcases h1 : pDateMDY s.data with _ | ⟨y, mo, d, rest⟩ <;> rw [h1] at h4 <;>
      try dsimp only at h4
    · simp at h4
    have h2 := pDateMDY_inv h1
    obtain ⟨p1, p2, p3, hl, -, -, -, hlen⟩ := pDateNNY_chars h2
    rcases hlen with h1len | h2len
    · obtain ⟨a, ha⟩ := List.length_eq_one.mp h1len
      rw [ha] at hl
      exact Or.inl ⟨a, _, by simpa using hl⟩
    · obtain ⟨a, b, hab⟩ := List.length_eq_two.mp h2len
      rw [hab] at hl
      exact Or.inr ⟨a, b, _, by simpa using hl⟩
  have hp4 : p4Dig s.data = none := by
    rcases hstart with ⟨a, r1, hs⟩ | ⟨a, b, r1, hs⟩
    · rw [hs]; exact p4Dig_none2 a '/' r1 (by decide)
    · rw [hs]; exact p4Dig_none3 a b '/' r1 (by decide)
  have hF1 : strptimeF1 s = none := pFormat_none (pDateYsep_none hp4)
  have hF2 : strptimeF2 s = none := pFormat_none (pDateYsep_none hp4)
  have hF3 : strptimeF3 s = none := pFormat_none (pDateYsep_none hp4)
  unfold parseTimestamp
  rw [hF1, hF2, hF3, h4]

theorem c4_format_order_mdy_wins_witness :
    strptimeF4 "03/04/2023 10:00:00" = some ⟨2023, 3, 4, 10, 0, 0⟩ ∧
      strptimeF5 "03/04/2023 10:00:00" = some ⟨2023, 4, 3, 10, 0, 0⟩ ∧
      parseTimestamp "03/04/2023 10:00:00" = some ⟨2023, 3, 4, 10, 0, 0⟩ :=
  ⟨by decide, by decide,
    c4_format_order_mdy_wins "03/04/2023 10:00:00" ⟨2023, 3, 4, 10, 0, 0⟩
      ⟨2023, 4, 3, 10, 0, 0⟩ (by decide) (by decide)⟩

/-- C6: a string that matches none of the five format patterns as a
whole-string match makes normalize_timestamp return None, whatever the
timezone arguments are. -/
theorem c6_unparseable_failure (s src tgt : String)
    (h1 : strptimeF1 s = none) (h2 : strptimeF2 s = none)
    (h3 : strptimeF3 s = none) (h4 : strptimeF4 s = none)
    (h5 : strptimeF5 s = none) :
    normalize_timestamp s src tgt = none := by
  have hp : parseTimestamp s = none := by
    unfold parseTimestamp
    rw [h1, h2, h3, h4, h5]
  simp [normalize_timestamp, runWithHandlers, normalizeBody, hp]

theorem c6_unparseable_failure_witness :
    strptimeF1 "not-a-date" = none ∧ strptimeF2 "not-a-date" = none ∧
      strptimeF3 "not-a-date" = none ∧ strptimeF4 "not-a-date" = none ∧
      strptimeF5 "not-a-date" = none ∧
      normalize_timestamp "not-a-date" "UTC" "America/New_York" = none :=
  ⟨by decide, by decide, by decide, by decide, by decide,
    c6_unparseable_failure "not-a-date" "UTC" "America/New_York"
      (by decide) (by decide) (by decide) (by decide) (by decide)⟩

/-- C5: whenever the source or the target timezone name does not
resolve against the timezone database, normalize_timestamp returns the
failure value None (the UnknownTimeZoneError is caught inside), for
every input timestamp string. -/
theorem c5_unknown_timezone_failure (ts src tgt : String)
    (h : pytzTimezone src = none ∨ pytzTimezone tgt = none) :
    normalize_timestamp ts src tgt = none := by
  rcases hp : parseTimestamp ts with _ | dt
  · simp [normalize_timestamp, runWithHandlers, normalizeBody, hp]
  rcases hs : pytzTimezone src with _ | z1
  · simp [normalize_timestamp, runWithHandlers, normalizeBody, hp, hs, PyExc.isException]
  rcases ht : pytzTimezone tgt with _ | z2
  · simp [normalize_timestamp, runWithHandlers, normalizeBody, hp, hs, ht, PyExc.isException]
  · rcases h with h | h
    · rw [hs] at h; exact absurd h (by simp)
    · rw [ht] at h; exact absurd h (by simp)

theorem c5_unknown_timezone_failure_witness :
    (pytzTimezone "Mars/Phobos" = none ∨ pytzTimezone "UTC" = none) ∧
      normalize_timestamp "2023:06:15 12:00:00" "Mars/Phobos" "UTC" = none :=
  ⟨Or.inl rfl,
    c5_unknown_timezone_failure "2023:06:15 12:00:00" "Mars/Phobos" "UTC" (Or.inl rfl)⟩

/-- C10: normalize_timestamp is total at its interface: for every
triple of input strings the handler chain yields a value (None or a
formatted string) and no exception class escapes, because every
exception the body can raise derives from Exception. -/
theorem c10_normalize_total (ts src tgt : String) :
    ∃ r : Option String, runWithHandlers (normalizeBody ts src tgt) = Except.ok r ∧
      normalize_timestamp ts src tgt = r := by
  rcases hb : normalizeBody ts src tgt with e | v
  · have he : e.isException = true := by
      unfold normalizeBody at hb
      rcases hp : parseTimestamp ts with _ | dt <;> rw [hp] at hb <;> try dsimp only at hb
      · simp at hb
      rcases hs : pytzTimezone src with _ | z1 <;> rw [hs] at hb <;> try dsimp only at hb
      · injection hb with hb1; rw [← hb1]; rfl
      rcases ht : pytzTimezone tgt with _ | z2 <;> rw [ht] at hb <;> try dsimp only at hb
      · injection hb with hb1; rw [← hb1]; rfl
      rcases ha : astimezone (localize z1 dt).1 (localize z1 dt).2 z2 with _ | out <;>
        rw [ha] at hb <;> try dsimp only at hb
      · injection hb with hb1; rw [← hb1]; rfl
      · simp at hb
    refine ⟨none, ?_, ?_⟩
    · simp [runWithHandlers, hb, he]
    · simp [normalize_timestamp, runWithHandlers, hb, he]
  · refine ⟨v, ?_, ?_⟩
    · simp [runWithHandlers, hb]
    · simp [normalize_timestamp, runWithHandlers, hb]

/-- C3: converting 2023:06:15 12:00:00 from UTC to America/New_York
yields 2023:06:15 08:00:00 (EDT, UTC-4): the daylight-saving rule in
force on that date is applied; on a winter date of the same year the
same conversion applies the standard offset UTC-5 instead, so the
offset is date-dependent, not fixed. -/
theorem c3_dst_aware_conversion :
    normalize_timestamp "2023:06:15 12:00:00" "UTC" "America/New_York" =
        some "2023:06:15 08:00:00" ∧
      normalize_timestamp "2023:12:15 12:00:00" "UTC" "America/New_York" =
        some "2023:12:15 07:00:00" :=
  ⟨rfl, rfl⟩

/-- C1: on an EXIF tag set holding a parseable DateTime tag, with
dry-run off, the replacements are staged, but the write-back path
raises AttributeError at the nonexistent PIL attribute
Image.ExifTags.ExifTag, the catch-all handler swallows it, and the
file is never written. -/
theorem c1_image_writeback_attribute_error :
    stagedExif [(306, "2023:06:15 12:00:00")] "UTC" =
        [(306, "2023:06:15 12:00:00")] ∧
      process_image_file (some [(306, "2023:06:15 12:00:00")]) "UTC" false =
        ⟨[(306, "2023:06:15 12:00:00")], none,
          [Event.readF, Event.evalCand "2023:06:15 12:00:00"
            (some "2023:06:15 12:00:00")],
          ImageOutcome.errorCaught "AttributeError"⟩ :=
  ⟨rfl, rfl⟩

theorem strptimeDateOnly_chars {w : String} {dt : DateTime}
    (h : strptimeDateOnly w = some dt) :
    ∃ p1 p2 p3 : List Char, w.data = p1 ++ '-' :: p2 ++ '-' :: p3 ∧
      p1.all Char.isDigit = true ∧ p2.all Char.isDigit = true ∧
      p3.all Char.isDigit = true := by
  unfold strptimeDateOnly at h
  rcases h1 : pDateYdash w.data with _ | ⟨y, mo, d, rest⟩ <;> rw [h1] at h <;>
    try dsimp only at h
  · simp at h
  split_ifs at h with hrest
  unfold pDateYdash at h1
  obtain ⟨p1, p2, p3, hw, ha1, ha2, ha3⟩ := pDateYsep_chars h1
  subst hrest
  refine ⟨p1, p2, p3, ?_, ha1, ha2, ha3⟩
  simpa using hw

theorem dateOnly_noSpace {w : String} {dt : DateTime}
    (h : strptimeDateOnly w = some dt) : ' ' ∉ w.data := by
  obtain ⟨p1, p2, p3, hw, h1, h2, h3⟩ := strptimeDateOnly_chars h
  intro hmem
  rw [hw] at hmem
  simp only [List.mem_append, List.mem_cons] at hmem
  rcases hmem with (h4 | h4 | h4) | h4 | h4
  · exact absurd (List.all_eq_true.mp h1 _ h4) (by decide)
  · exact absurd h4 (by decide)
  · exact absurd (List.all_eq_true.mp h2 _ h4) (by decide)
  · exact absurd h4 (by decide)
  · exact absurd (List.all_eq_true.mp h3 _ h4) (by decide)

theorem pDateDMY_inv {l r : List Char} {y mo d : Nat}
    (h : pDateDMY l = some (y, mo, d, r)) :
    pDateNNY okDay2 okMon2 l = some (d, mo, y, r) := by
  unfold pDateDMY at h
  rcases h1 : pDateNNY okDay2 okMon2 l with _ | ⟨f1, s1, y1, r1⟩ <;> rw [h1] at h <;>
    try dsimp only at h
  · simp at h
  simp only [Option.some.injEq, Prod.mk.injEq] at h
  obtain ⟨hy, hmo, hd, hr⟩ := h
  subst hy; subst hmo; subst hd; subst hr
  rfl

theorem strptimeF1_space {s : String} {d1 : DateTime}
    (h : strptimeF1 s = some d1) : ' ' ∈ s.data := by
  unfold strptimeF1 at h
  refine pFormat_space ?_ h
  intro y mo d r h1
  unfold pDateYcolon at h1
  obtain ⟨p1, p2, p3, hl, -, -, -⟩ := pDateYsep_chars h1
  exact ⟨p1 ++ ':' :: p2 ++ ':' :: p3, by rw [hl]⟩

theorem strptimeF2_space {s : String} {d1 : DateTime}
    (h : strptimeF2 s = some d1) : ' ' ∈ s.data := by
  unfold strptimeF2 at h
  refine pFormat_space ?_ h
  intro y mo d r h1
  unfold pDateYdash at h1
  obtain ⟨p1, p2, p3, hl, -, -, -⟩ := pDateYsep_chars h1
  exact ⟨p1 ++ '-' :: p2 ++ '-' :: p3, by rw [hl]⟩

theorem strptimeF3_space {s : String} {d1 : DateTime}
    (h : strptimeF3 s = some d1) : ' ' ∈ s.data := by
  unfold strptimeF3 at h
  refine pFormat_space ?_ h
  intro y mo d r h1
  unfold pDateYslash at h1
  obtain ⟨p1, p2, p3, hl, -, -, -⟩ := pDateYsep_chars h1
  exact ⟨p1 ++ '/' :: p2 ++ '/' :: p3, by rw [hl]⟩

theorem strptimeF4_space {s : String} {d1 : DateTime}
    (h : strptimeF4 s = some d1) : ' ' ∈ s.data := by
  unfold strptimeF4 at h
  refine pFormat_space ?_ h
  intro y mo d r h1
  obtain ⟨p1, p2, p3, hl, -, -, -, -⟩ := pDateNNY_chars (pDateMDY_inv h1)
  exact ⟨p1 ++ '/' :: p2 ++ '/' :: p3, by rw [hl]⟩

theorem strptimeF5_space {s : String} {d1 : DateTime}
    (h : strptimeF5 s = some d1) : ' ' ∈ s.data := by
  unfold strptimeF5 at h
  refine pFormat_space ?_ h
  intro y mo d r h1
  obtain ⟨p1, p2, p3, hl, -, -, -, -⟩ := pDateNNY_chars (pDateDMY_inv h1)
  exact ⟨p1 ++ '/' :: p2 ++ '/' :: p3, by rw [hl]⟩

theorem parse_space {s : String} {dt : DateTime}
    (h : parseTimestamp s = some dt) : ' ' ∈ s.data := by
  unfold parseTimestamp at h
  rcases h1 : strptimeF1 s with _ | d1 <;> rw [h1] at h
  · rcases h2 : strptimeF2 s with _ | d2 <;> rw [h2] at h
    · rcases h3 : strptimeF3 s with _ | d3 <;> rw [h3] at h
      · rcases h4 : strptimeF4 s with _ | d4 <;> rw [h4] at h
        · exact strptimeF5_space h
        · exact strptimeF4_space h4
      · exact strptimeF3_space h3
    · exact strptimeF2_space h2
  · exact strptimeF1_space h1

theorem dateOnly_normalize_none {w : String} {dt : DateTime}
    (hw : strptimeDateOnly w = some dt) (src tgt : String) :
    normalize_timestamp w src tgt = none := by
  have hns := dateOnly_noSpace hw
  have hp : parseTimestamp w = none := by
    rcases hp : parseTimestamp w with _ | d
    · rfl
    · exact absurd (parse_space hp) hns
  simp [normalize_timestamp, runWithHandlers, normalizeBody, hp]

theorem foldl_textStep_id (tgt : String) (cl : List String)
    (h : ∀ w ∈ cl, normalize_timestamp w "UTC" tgt = none)
    (acc : String × List (String × String)) :
    cl.foldl (textStep tgt) acc = acc := by
  induction cl generalizing acc with
  | nil => rfl
  | cons w cl ih =>
    have hw := h w (List.mem_cons_self _ _)
    have hstep : textStep tgt acc w = acc := by simp [textStep, hw]
    rw [List.foldl_cons, hstep]
    exact ih (fun x hx => h x (List.mem_cons_of_mem _ hx)) acc

theorem textCandidates_dateOnly {content : String} {w : String}
    (h : w ∈ textCandidates content) : (strptimeDateOnly w).isSome = true := by
  unfold textCandidates at h
  rw [List.mem_flatten] at h
  obtain ⟨pl, hpl, hw⟩ := h
  rw [List.mem_map] at hpl
  obtain ⟨line, -, hline⟩ := hpl
  rw [← hline] at hw
  exact (List.mem_filter.mp hw).2

/-- C2 (amended): each candidate the text scan extracts matches the
date-only pattern YYYY-MM-DD, and such a token never parses under any
of the five time-including formats of the normalizer (they all require
a space before the time of day, which a whitespace-delimited token
cannot contain), so every normalization fails, the replacement set
stays empty, the content is returned unchanged and nothing is
written. -/
theorem c2_text_candidates_never_replaced (content tgt : String) (dryRun : Bool) :
    (process_text_file content tgt dryRun).replacements = [] ∧
      (process_text_file content tgt dryRun).finalContent = content ∧
      (process_text_file content tgt dryRun).written = none := by
  have hall : ∀ w ∈ textCandidates content, normalize_timestamp w "UTC" tgt = none := by
    intro w hw
    have hs := textCandidates_dateOnly hw
    rw [Option.isSome_iff_exists] at hs
    obtain ⟨dt, hdt⟩ := hs
    exact dateOnly_normalize_none hdt "UTC" tgt
  have hfold := foldl_textStep_id tgt (textCandidates content) hall (content, [])
  refine ⟨?_, ?_, ?_⟩ <;> simp [process_text_file, hfold]

/-- C2 (counterexample): a file whose content holds the candidate
2023-06-15 twice: both occurrences are extracted, but the replacement
set stays empty and the content is unchanged, so neither occurrence is
replaced, against the claim that both are replaced. -/
theorem c2_text_global_replacement_counterexample :
    textCandidates "a 2023-06-15 b 2023-06-15" = ["2023-06-15", "2023-06-15"] ∧
      (process_text_file "a 2023-06-15 b 2023-06-15" "America/New_York" false).replacements
        = [] ∧
      (process_text_file "a 2023-06-15 b 2023-06-15" "America/New_York" false).finalContent
        = "a 2023-06-15 b 2023-06-15" ∧
      (process_text_file "a 2023-06-15 b 2023-06-15" "America/New_York" false).written
        = none :=
  ⟨rfl, rfl, rfl, rfl⟩

theorem daysInMonth_le31 (y m : Nat) : daysInMonth y m ≤ 31 := by
  unfold daysInMonth
  split_ifs <;> omega

theorem mkDateTime_bounded {y mo d h mi s : Nat} {dt : DateTime}
    (hm : mkDateTime y mo d h mi s = some dt) : Bounded dt := by
  unfold mkDateTime at hm
  split_ifs at hm with hc
  injection hm with hdt
  subst hdt
  obtain ⟨c1, c2, c3, c4, c5, c6, c7, c8, c9⟩ := hc
  exact ⟨c1, c2, c4, le_trans c6 (daysInMonth_le31 y mo), c7, c8, c9⟩

theorem nextDay_bounded {dt d2 : DateTime} (hb : Bounded dt)
    (h : nextDay dt = some d2) : Bounded d2 := by
  obtain ⟨b1, b2, b3, b4, b5, b6, b7⟩ := hb
  have hd31 := daysInMonth_le31 dt.year dt.month
  unfold nextDay at h
  split_ifs at h with h1 h2 h3 <;>
    (injection h with h4; subst h4; unfold Bounded; dsimp only) <;> omega

theorem prevDay_bounded {dt d2 : DateTime} (hb : Bounded dt)
    (h : prevDay dt = some d2) : Bounded d2 := by
  obtain ⟨b1, b2, b3, b4, b5, b6, b7⟩ := hb
  have hd31 := daysInMonth_le31 dt.year (dt.month - 1)
  unfold prevDay at h
  split_ifs at h with h1 h2 h3 <;>
    (injection h with h4; subst h4; unfold Bounded; dsimp only) <;> omega

theorem addMinutes_bounded {dt dt2 : DateTime} {delta : Int} (hb : Bounded dt)
    (hlo : -1440 < delta) (hhi : delta < 1440)
    (h : addMinutes dt delta = some dt2) : Bounded dt2 := by
  have hb0 := hb
  obtain ⟨b1, b2, b3, b4, b5, b6, b7⟩ := hb0
  unfold addMinutes at h
  dsimp only at h
  split_ifs at h with h1 h2
  · rcases hp : prevDay dt with _ | d3 <;> rw [hp] at h <;> try dsimp only at h
    · simp at h
    injection h with h4
    subst h4
    obtain ⟨c1, c2, c3, c4, c5, c6, c7⟩ := prevDay_bounded hb hp
    unfold Bounded
    dsimp only
    refine ⟨c1, c2, c3, c4, ?_, ?_, c7⟩ <;> omega
  · injection h with h4
    subst h4
    unfold Bounded
    dsimp only
    refine ⟨b1, b2, b3, b4, ?_, ?_, b7⟩ <;> omega
  · rcases hp : nextDay dt with _ | d3 <;> rw [hp] at h <;> try dsimp only at h
    · simp at h
    injection h with h4
    subst h4
    obtain ⟨c1, c2, c3, c4, c5, c6, c7⟩ := nextDay_bounded hb hp
    unfold Bounded
    dsimp only
    refine ⟨c1, c2, c3, c4, ?_, ?_, c7⟩ <;> omega

theorem pFormat_bounded {pDate : List Char → Option (Nat × Nat × Nat × List Char)}
    {s : String} {dt : DateTime} (h : pFormat pDate s = some dt) : Bounded dt := by
  unfold pFormat at h
  rcases h1 : pDate s.data with _ | ⟨y, mo, d, rest⟩ <;> rw [h1] at h <;> try dsimp only at h
  · simp at h
  rcases h2 : pLit ' ' rest with _ | rest1 <;> rw [h2] at h <;> try dsimp only at h
  · simp at h
  rcases h3 : pTime rest1 with _ | ⟨hh, mm, ss, rest2⟩ <;> rw [h3] at h <;> try dsimp only at h
  · simp at h
  split_ifs at h
  exact mkDateTime_bounded h

theorem parse_bounded {s : String} {dt : DateTime}
    (h : parseTimestamp s = some dt) : Bounded dt := by
  unfold parseTimestamp at h
  rcases h1 : strptimeF1 s with _ | d1 <;> rw [h1] at h
  · rcases h2 : strptimeF2 s with _ | d2 <;> rw [h2] at h
    · rcases h3 : strptimeF3 s with _ | d3 <;> rw [h3] at h
      · rcases h4 : strptimeF4 s with _ | d4 <;> rw [h4] at h
        · exact pFormat_bounded h
        · injection h with h5; subst h5; exact pFormat_bounded h4
      · injection h with h5; subst h5; exact pFormat_bounded h3
    · injection h with h5; subst h5; exact pFormat_bounded h2
  · injection h with h5; subst h5; exact pFormat_bounded h1

theorem pytzTimezone_bounded {name : String} {z : PyTz}
    (h : pytzTimezone name = some z) (dt : DateTime) :
    (-1440 < z.offsetAtLocal dt ∧ z.offsetAtLocal dt < 1440) ∧
      (-1440 < z.offsetAtUtc dt ∧ z.offsetAtUtc dt < 1440) := by
  unfold pytzTimezone at h
  split_ifs at h with h1 h2
  · injection h with hz; subst hz
    refine ⟨⟨?_, ?_⟩, ⟨?_, ?_⟩⟩ <;> simp [utcTz]
  · injection h with hz; subst hz
    refine ⟨⟨?_, ?_⟩, ⟨?_, ?_⟩⟩ <;> simp [nyTz] <;> split_ifs <;> omega

theorem astimezone_bounded {wall out : DateTime} {srcOff : Int} {tgt : PyTz}
    (hb : Bounded wall) (hs1 : -1440 < srcOff) (hs2 : srcOff < 1440)
    (ht : ∀ dt : DateTime, -1440 < tgt.offsetAtUtc dt ∧ tgt.offsetAtUtc dt < 1440)
    (h : astimezone wall srcOff tgt = some out) : Bounded out := by
  unfold astimezone at h
  rcases h1 : addMinutes wall (-srcOff) with _ | u <;> rw [h1] at h <;> try dsimp only at h
  · simp at h
  have hu : Bounded u := addMinutes_bounded hb (by omega) (by omega) h1
  exact addMinutes_bounded hu (ht u).1 (ht u).2 h

theorem normalize_some_shape {ts src tgt o : String}
    (h : normalize_timestamp ts src tgt = some o) :
    ∃ out : DateTime, Bounded out ∧ o = strftimeExif out := by
  unfold normalize_timestamp runWithHandlers at h
  rcases hb : normalizeBody ts src tgt with e | v <;> rw [hb] at h <;> try dsimp only at h
  · split_ifs at h <;> simp at h
  unfold normalizeBody at hb
  rcases hp : parseTimestamp ts with _ | dt <;> rw [hp] at hb <;> try dsimp only at hb
  · injection hb with hv; subst hv; simp at h
  rcases hs : pytzTimezone src with _ | z1 <;> rw [hs] at hb <;> try dsimp only at hb
  · simp at hb
  rcases htz : pytzTimezone tgt with _ | z2 <;> rw [htz] at hb <;> try dsimp only at hb
  · simp at hb
  rcases ha : astimezone (localize z1 dt).1 (localize z1 dt).2 z2 with _ | out <;>
    rw [ha] at hb <;> try dsimp only at hb
  · simp at hb
  injection hb with hv
  subst hv
  injection h with ho
  refine ⟨out, ?_, ho.symm⟩
  have hdt : Bounded dt := parse_bounded hp
  have hsrcb := pytzTimezone_bounded hs dt
  exact astimezone_bounded hdt hsrcb.1.1 hsrcb.1.2
    (fun u => (pytzTimezone_bounded htz u).2) ha

theorem digitChar_isDigit {n : Nat} (h : n < 10) : (Nat.digitChar n).isDigit = true := by
  interval_cases n <;> decide

theorem yearChars4 {y : Nat} (h1 : 1000 ≤ y) (h2 : y ≤ 9999) :
    yearChars y = [Nat.digitChar (y / 1000), Nat.digitChar (y / 100 % 10),
      Nat.digitChar (y / 10 % 10), Nat.digitChar (y % 10)] := by
  unfold yearChars
  rw [if_neg (by omega), if_neg (by omega), if_neg (by omega), if_pos (by omega)]

theorem strftimeExif_length (dt : DateTime) :
    (strftimeExif dt).length = (yearChars dt.year).length + 15 := by
  show (yearChars dt.year ++ ':' :: pad2c dt.month ++ ':' :: pad2c dt.day ++
    ' ' :: pad2c dt.hour ++ ':' :: pad2c dt.minute ++ ':' :: pad2c dt.second).length =
      (yearChars dt.year).length + 15
  simp [pad2c]

theorem strftimeExif_shape {dt : DateTime} (hb : Bounded dt) (hy : 1000 ≤ dt.year) :
    isExifShape (strftimeExif dt) = true := by
  obtain ⟨b1, b2, b3, b4, b5, b6, b7⟩ := hb
  show isExifShapeL (yearChars dt.year ++ ':' :: pad2c dt.month ++ ':' :: pad2c dt.day ++
    ' ' :: pad2c dt.hour ++ ':' :: pad2c dt.minute ++ ':' :: pad2c dt.second) = true
  rw [yearChars4 hy b2]
  simp only [pad2c, List.cons_append, List.nil_append]
  simp only [isExifShapeL, Bool.and_eq_true, beq_iff_eq]
  repeat' apply And.intro
  all_goals first
  | trivial
  | (apply digitChar_isDigit; omega)

/-- C7 (amended): every successful normalize_timestamp output is the
colon-and-space separated serialization with two-digit zero-padded
month, day, hour, minute and second fields and the year printed as its
unpadded decimal numeral; the length is between 16 and 19, and exactly
when the converted year has four digits (output length 19) the output
is in the fixed format YYYY:MM:DD HH:MM:SS.  A converted year below
1000 yields a shorter year field, contrary to the original claim. -/
theorem c7_output_format_amended (ts src tgt o : String)
    (h : normalize_timestamp ts src tgt = some o) :
    16 ≤ o.length ∧ o.length ≤ 19 ∧ (o.length = 19 → isExifShape o = true) := by
  obtain ⟨out, hbout, ho⟩ := normalize_some_shape h
  have hb0 := hbout
  obtain ⟨b1, b2, b3, b4, b5, b6, b7⟩ := hb0
  subst ho
  rw [strftimeExif_length]
  have hl14 : 1 ≤ (yearChars out.year).length ∧ (yearChars out.year).length ≤ 4 ∧
      ((yearChars out.year).length = 4 → 1000 ≤ out.year) := by
    unfold yearChars
    split_ifs with hy1 hy2 hy3 hy4
    · simp
    · simp
    · simp
    · simp
      omega
    · exact absurd b2 (by omega)
  refine ⟨by omega, by omega, ?_⟩
  intro h19
  exact strftimeExif_shape hbout (hl14.2.2 (by omega))

theorem c7_output_format_amended_witness :
    16 ≤ ("2023:06:15 08:00:00" : String).length ∧
      ("2023:06:15 08:00:00" : String).length ≤ 19 ∧
      (("2023:06:15 08:00:00" : String).length = 19 →
        isExifShape "2023:06:15 08:00:00" = true) :=
  c7_output_format_amended "2023:06:15 12:00:00" "UTC" "America/New_York"
    "2023:06:15 08:00:00" rfl

/-- C7 (counterexample): the input 0999:06:15 12:00:00 parses (the %Y
directive accepts any four digits and year 999 is a valid datetime
year), converts, and is printed with a three-digit year, so the output
of a successful normalization is not always in the format
YYYY:MM:DD HH:MM:SS. -/
theorem c7_output_format_counterexample :
    normalize_timestamp "0999:06:15 12:00:00" "UTC" "UTC" =
        some "999:06:15 12:00:00" ∧
      isExifShape "999:06:15 12:00:00" = false ∧
      ("999:06:15 12:00:00" : String).length = 18 :=
  ⟨rfl, rfl, rfl⟩

theorem writeCount_nonwrite {l : List Event} (h : ∀ e ∈ l, e.isWrite = false) :
    writeCount l = 0 := by
  unfold writeCount
  have : l.filter Event.isWrite = [] := by
    rw [List.filter_eq_nil_iff]
    intro a ha
    simp [h a ha]
  rw [this]
  rfl

theorem writeCount_append (l t : List Event) :
    writeCount (l ++ t) = writeCount l + writeCount t := by
  unfold writeCount
  rw [List.filter_append, List.length_append]

theorem noEvalAfterWrite_build {l : List Event} (h : ∀ e ∈ l, e.isWrite = false)
    {t : List Event} (ht : noEvalAfterWrite t = true) :
    noEvalAfterWrite (l ++ t) = true := by
  induction l with
  | nil => simpa using ht
  | cons e l ih =>
    have he := h e (List.mem_cons_self _ _)
    have ih2 := ih (fun x hx => h x (List.mem_cons_of_mem _ hx))
    cases e with
    | readF => simpa [noEvalAfterWrite] using ih2
    | evalCand v r => simpa [noEvalAfterWrite] using ih2
    | writeF p => simp [Event.isWrite] at he

theorem noEvalAfterWrite_nonwrite {l : List Event} (h : ∀ e ∈ l, e.isWrite = false) :
    noEvalAfterWrite l = true := by
  have := noEvalAfterWrite_build h (t := []) rfl
  simpa using this

theorem imageEvents_nonwrite (tags : List (Nat × String)) (tgt : String) :
    ∀ e ∈ (Event.readF :: tags.filterMap fun p =>
      if isDateTimeTag p.1 then
        some (Event.evalCand p.2 (normalize_timestamp p.2 "UTC" tgt))
      else none), e.isWrite = false := by
  intro e he
  rcases List.mem_cons.mp he with h1 | h1
  · subst h1; rfl
  rw [List.mem_filterMap] at h1
  obtain ⟨p, -, hp⟩ := h1
  split_ifs at hp
  injection hp with h2
  subst h2
  rfl

theorem textEvents_nonwrite (cands : List String) (tgt : String) :
    ∀ e ∈ (Event.readF :: cands.map fun w =>
      Event.evalCand w (normalize_timestamp w "UTC" tgt)), e.isWrite = false := by
  intro e he
  rcases List.mem_cons.mp he with h1 | h1
  · subst h1; rfl
  rw [List.mem_map] at h1
  obtain ⟨w, -, hw⟩ := h1
  subst hw
  rfl

theorem imageMapEvents_nonwrite (tags : List (Nat × String)) (tgt : String) :
    ∀ e ∈ (tags.filterMap fun p =>
      if isDateTimeTag p.1 then
        some (Event.evalCand p.2 (normalize_timestamp p.2 "UTC" tgt))
      else none), e.isWrite = false := by
  intro e he
  rw [List.mem_filterMap] at he
  obtain ⟨p, -, hp⟩ := he
  split_ifs at hp
  injection hp with h2
  subst h2
  rfl

theorem textMapEvents_nonwrite (cands : List String) (tgt : String) :
    ∀ e ∈ (cands.map fun w =>
      Event.evalCand w (normalize_timestamp w "UTC" tgt)), e.isWrite = false := by
  intro e he
  rw [List.mem_map] at he
  obtain ⟨w, -, hw⟩ := he
  subst hw
  rfl

theorem writeCount_cons_readF (l : List Event) :
    writeCount (Event.readF :: l) = writeCount l := by
  simp [writeCount, Event.isWrite]

theorem noEvalAfterWrite_cons_readF (l : List Event) :
    noEvalAfterWrite (Event.readF :: l) = noEvalAfterWrite l := rfl

/-- C8: with the dry-run flag set neither processor writes anything
back: the written field stays none for every input, while the outcome
still reports the set of staged changes when it is nonempty. -/
theorem c8_dry_run_no_write (exif : List (Nat × String)) (content tgt : String) :
    (process_image_file (some exif) tgt true).written = none ∧
      (process_image_file (some exif) tgt true).outcome =
        (if stagedExif exif tgt = [] then ImageOutcome.noDateTimeTags
          else ImageOutcome.dryRunReport (stagedExif exif tgt)) ∧
      (process_text_file content tgt true).written = none ∧
      (process_text_file content tgt true).outcome =
        (if textReplacements content tgt = [] then TextOutcome.noOp
          else TextOutcome.dryRunReport (textReplacements content tgt)) := by
  refine ⟨?_, ?_, ?_, ?_⟩
  · by_cases hs : stagedExif exif tgt = [] <;> simp [process_image_file, hs]
  · by_cases hs : stagedExif exif tgt = [] <;> simp [process_image_file, hs]
  · by_cases hr : ((textCandidates content).foldl (textStep tgt) (content, [])).2 = [] <;>
      simp [process_text_file, hr]
  · by_cases hr : ((textCandidates content).foldl (textStep tgt) (content, [])).2 = [] <;>
      simp [process_text_file, textReplacements, hr]

/-- C9: per invocation each processor performs at most one write, every
candidate evaluation happens before any write, and a write (only the
text processor can reach one) persists the content obtained by folding
the whole candidate list, so a failed candidate can never leave the
file partially rewritten. -/
theorem c9_single_write_after_evaluation (exif : Option (List (Nat × String)))
    (content tgt : String) (dryRun : Bool) :
    writeCount (process_image_file exif tgt dryRun).events ≤ 1 ∧
      noEvalAfterWrite (process_image_file exif tgt dryRun).events = true ∧
      writeCount (process_text_file content tgt dryRun).events ≤ 1 ∧
      noEvalAfterWrite (process_text_file content tgt dryRun).events = true ∧
      ((process_text_file content tgt dryRun).written = none ∨
        (process_text_file content tgt dryRun).written = some (textFinal content tgt)) ∧
      ((process_image_file exif tgt dryRun).written = none ∨
        ∃ tags, exif = some tags ∧ (process_image_file exif tgt dryRun).written =
          some (applyStaged tags (stagedExif tags tgt))) := by
  obtain ⟨hw0, hn0, hwr0⟩ : writeCount (process_image_file exif tgt dryRun).events = 0 ∧
      noEvalAfterWrite (process_image_file exif tgt dryRun).events = true ∧
      (process_image_file exif tgt dryRun).written = none := by
    rcases exif with _ | tags
    · exact ⟨rfl, rfl, rfl⟩
    · have h0 : writeCount (Event.readF :: tags.filterMap fun p =>
          if isDateTimeTag p.1 then
            some (Event.evalCand p.2 (normalize_timestamp p.2 "UTC" tgt))
          else none) = 0 := by
        rw [writeCount_cons_readF]
        exact writeCount_nonwrite (imageMapEvents_nonwrite tags tgt)
      have h1 : noEvalAfterWrite (Event.readF :: tags.filterMap fun p =>
          if isDateTimeTag p.1 then
            some (Event.evalCand p.2 (normalize_timestamp p.2 "UTC" tgt))
          else none) = true := by
        rw [noEvalAfterWrite_cons_readF]
        exact noEvalAfterWrite_nonwrite (imageMapEvents_nonwrite tags tgt)
      by_cases hs : stagedExif tags tgt = [] <;> cases dryRun <;>
        exact ⟨by simp [process_image_file, pilExifSerialize, hs, h0],
          by simp [process_image_file, pilExifSerialize, hs, h1],
          by simp [process_image_file, pilExifSerialize, hs]⟩
  refine ⟨by omega, hn0, ?_, ?_, ?_, Or.inl hwr0⟩
  all_goals
    have hnw := textMapEvents_nonwrite (textCandidates content) tgt
  all_goals
    by_cases hr : ((textCandidates content).foldl (textStep tgt) (content, [])).2 = []
  · simp only [process_text_file, hr]
    simp [writeCount_cons_readF, writeCount_nonwrite hnw]
  · cases dryRun
    · have hev : (process_text_file content tgt false).events =
          Event.readF :: (((textCandidates content).map fun w =>
            Event.evalCand w (normalize_timestamp w "UTC" tgt)) ++
            [Event.writeF ((textCandidates content).foldl (textStep tgt) (content, [])).1]) := by
        simp [process_text_file, hr]
      rw [hev, writeCount_cons_readF, writeCount_append, writeCount_nonwrite hnw]
      rfl
    · simp only [process_text_file, hr]
      simp [writeCount_cons_readF, writeCount_nonwrite hnw]
  · simp only [process_text_file, hr]
    simp [noEvalAfterWrite_cons_readF, noEvalAfterWrite_nonwrite hnw]
  · cases dryRun
    · have hev : (process_text_file content tgt false).events =
          Event.readF :: (((textCandidates content).map fun w =>
            Event.evalCand w (normalize_timestamp w "UTC" tgt)) ++
            [Event.writeF ((textCandidates content).foldl (textStep tgt) (content, [])).1]) := by
        simp [process_text_file, hr]
      rw [hev, noEvalAfterWrite_cons_readF]
      exact noEvalAfterWrite_build hnw rfl
    · simp only [process_text_file, hr]
      simp [noEvalAfterWrite_cons_readF, noEvalAfterWrite_nonwrite hnw]
  · exact Or.inl (by simp [process_text_file, hr])
  · cases dryRun
    · refine Or.inr ?_
      simp [process_text_file, textFinal, hr]
    · exact Or.inl (by simp [process_text_file, hr])

end TZN
